import Mathlib

/-!
Verification of the fitvantage affiliate product-cache pipeline.

Shallow embedding of the cache refresh / eligibility / ranking code:
  - `apps/affiliate/models.py` (AffiliateProduct, AffiliateProductFilter,
    AffiliateProductCache and their methods),
  - `apps/affiliate/affiliate_services.py` (CacheService, FilterService,
    ProductService),
  - `apps/core/tasks.py` (refresh_affiliate_products and its helper),
  - `apps/core/utils.py` (ProductRanker).

Conventions: Django model rows become structures; `DecimalField`/`FloatField`
values become `ℚ` (exact arithmetic model of the numeric fields); nullable
fields become `Option`; datetimes become integer timestamps (seconds);
querysets become `List`s in database order; the one-row-per-category tables
(caches, filter rules) become association lists keyed by category id; the
Amazon API client becomes an oracle function returning `Except` (an exception
or a payload list); Python `sorted` becomes the stable `List.mergeSort`.
Python truthiness of an optional numeric (`if product.price_gbp:`) is `some x`
with `x ≠ 0`; truthiness of an optional string is `some s` with `s ≠ ""`.
-/

namespace Fitvantage

/-- One row of `AffiliateProduct` (models.py): the fields the pipeline reads.
`asin` is unique (`unique=True` on the model), `rating` and prices are
nullable, `status` is one of ACTIVE / INACTIVE / DISCONTINUED / OUT_OF_STOCK. -/
structure AffiliateProduct where
  asin : String
  rating : Option ℚ
  review_count : Int
  in_stock : Bool
  price_gbp : Option ℚ
  status : String
  deriving DecidableEq, Repr

/-- One row of `AffiliateProductFilter` (models.py): per-category rule. -/
structure AffiliateProductFilter where
  min_rating : ℚ
  min_review_count : Int
  max_bsr_percentile : Int
  uk_marketplace_only : Bool
  in_stock_only : Bool
  min_price : Option ℚ
  max_price : Option ℚ
  is_active : Bool
  deriving DecidableEq, Repr

/-- One row of `AffiliateProductCache` (models.py): per-category cache. -/
structure AffiliateProductCache where
  cached_asins : List String
  is_fresh : Bool
  next_refresh : Option Int
  product_count : Int
  error_count : Int
  last_error : String
  deriving DecidableEq, Repr

/-- An `AffiliateCategory` row, reduced to what the pipeline reads:
its id and its optional parent id (`parent` FK, nullable). -/
structure AffiliateCategory where
  id : Nat
  parent : Option Nat
  deriving DecidableEq, Repr

/-- Python truthiness of an optional numeric value (`if x:` on
`Decimal`/`float`/`None`): `None` and `0` are falsy. -/
def qTruthy : Option ℚ → Bool
  | none => false
  | some x => x != 0

/-- Python truthiness of an optional string (`if s:`): `None` and `""` falsy. -/
def sTruthy : Option String → Bool
  | none => false
  | some s => s != ""

/-- `AffiliateProductCache.is_cache_stale` (models.py lines 450-456):
stale when `is_fresh` is false, or when `next_refresh` is set and strictly in
the past.  The stored identifier list is not consulted. -/
def is_cache_stale (c : AffiliateProductCache) (now : Int) : Bool :=
  if !c.is_fresh then true
  else if (match c.next_refresh with
           | some t => decide (now > t)
           | none => false) then true
  else false

/-- `CacheService.is_cache_fresh` (affiliate_services.py lines 210-227):
usable iff the freshness flag is set, the identifier list is non-empty, and
`is_cache_stale` is false. -/
def is_cache_fresh (c : AffiliateProductCache) (now : Int) : Bool :=
  if !c.is_fresh then false
  else if c.cached_asins.isEmpty then false
  else !(is_cache_stale c now)

/-- `FilterService.apply_filter_rules` (affiliate_services.py lines 286-317):
rating gate, review-count gate, stock gate, then price bounds guarded by
Python truthiness of `product.price_gbp` and of each bound. -/
def apply_filter_rules (product : AffiliateProduct)
    (filter_rules : AffiliateProductFilter) : Bool :=
  if (match product.rating with
      | none => true
      | some r => decide (r < filter_rules.min_rating)) then false
  else if decide (product.review_count < filter_rules.min_review_count) then false
  else if filter_rules.in_stock_only && !product.in_stock then false
  else if qTruthy product.price_gbp then
    if qTruthy filter_rules.min_price &&
        decide (product.price_gbp.getD 0 < filter_rules.min_price.getD 0) then false
    else if qTruthy filter_rules.max_price &&
        decide (product.price_gbp.getD 0 > filter_rules.max_price.getD 0) then false
    else true
  else true

/-- The `filter_rules` dict taken by `AffiliateProduct.meets_filter_criteria`
(`dict.get` with defaults), fields the method reads. -/
structure FilterRulesDict where
  min_rating : Option ℚ
  min_review_count : Option Int
  in_stock_only : Option Bool
  deriving DecidableEq, Repr

/-- `AffiliateProduct.meets_filter_criteria` (models.py lines 251-273):
dict-based variant of the eligibility check (no price clause). -/
def meets_filter_criteria (p : AffiliateProduct) (d : FilterRulesDict) : Bool :=
  if (match p.rating with
      | none => true
      | some r => decide (r < d.min_rating.getD 4)) then false
  else if decide (p.review_count < d.min_review_count.getD 200) then false
  else if !p.in_stock && d.in_stock_only.getD false then false
  else true

/-- Association-list lookup keyed by category id, modelling the one-to-one
ORM relations `category.affiliate_product_cache` / `category.filter_rules`
(`None` models `DoesNotExist`). -/
def lookupRow {β : Type} (store : List (Nat × β)) (cid : Nat) : Option β :=
  (store.find? (fun e => e.1 == cid)).map (fun e => e.2)

/-- `FilterService.get_filter_rules` (affiliate_services.py lines 319-339):
the category's rule row, or a synthesized `AffiliateProductFilter` with the
explicit arguments 4.0 / 200 / in-stock-only and the model-field defaults for
the rest. -/
def get_filter_rules (rules : List (Nat × AffiliateProductFilter))
    (category : AffiliateCategory) : AffiliateProductFilter :=
  match lookupRow rules category.id with
  | some f => f
  | none =>
    { min_rating := 4
      min_review_count := 200
      max_bsr_percentile := 10
      uk_marketplace_only := true
      in_stock_only := true
      min_price := none
      max_price := none
      is_active := true }

/-- A raw product payload dict returned by the Amazon API client
(`utils.py`): the keys `ProductRanker.rank_products` and the refresh task
read via `dict.get`, each possibly absent. -/
structure RawProduct where
  asin : Option String
  rating : Option ℚ
  review_count : Option Int
  bsr_rank : Option ℚ
  deriving DecidableEq, Repr

/-- First component of the ranking key (utils.py line 211):
`-(p.get("rating", 0) * 0.4)`. -/
def k1 (p : RawProduct) : ℚ := -(p.rating.getD 0 * (2/5))

/-- Second component (utils.py line 212):
`-(p.get("review_count", 0) * 0.3)`. -/
def k2 (p : RawProduct) : ℚ := -((p.review_count.getD 0 : ℚ) * (3/10))

/-- Third component (utils.py line 213):
`p.get("bsr_rank", float("inf")) * 0.3`, with infinity modelled as `⊤`. -/
def k3 (p : RawProduct) : WithTop ℚ :=
  match p.bsr_rank with
  | none => ⊤
  | some b => ((b * (3/10) : ℚ) : WithTop ℚ)

/-- Python tuple comparison of the three-component ranking keys:
the ordering `sorted` applies in `ProductRanker.rank_products`. -/
def rankLE (p q : RawProduct) : Bool :=
  decide (k1 p < k1 q ∨ (k1 p = k1 q ∧
    (k2 p < k2 q ∨ (k2 p = k2 q ∧ k3 p ≤ k3 q))))

/-- `ProductRanker.rank_products` (utils.py lines 188-215) at the default
weights: the stable sort of the payload list by the three-part key. -/
def rank_products (products : List RawProduct) : List RawProduct :=
  products.mergeSort rankLE

/-- The best-seller-rank key as the spec describes it: the raw rank with an
absent rank treated as worst-possible (`⊤`). -/
def bsrKey (p : RawProduct) : WithTop ℚ :=
  match p.bsr_rank with
  | none => ⊤
  | some b => (b : WithTop ℚ)

/-- The ordering the spec prescribes for the ranker: rating descending, then
review count descending, then best-seller rank ascending with absence worst. -/
def specRankLE (p q : RawProduct) : Prop :=
  q.rating.getD 0 < p.rating.getD 0 ∨
  (p.rating.getD 0 = q.rating.getD 0 ∧
    (q.review_count.getD 0 < p.review_count.getD 0 ∨
      (p.review_count.getD 0 = q.review_count.getD 0 ∧ bsrKey p ≤ bsrKey q)))

/-- The per-category cache table: at most one row per category id. -/
abbrev CacheStore : Type := List (Nat × AffiliateProductCache)

/-- The per-category rule table: at most one row per category id. -/
abbrev RuleStore : Type := List (Nat × AffiliateProductFilter)

/-- The ASIN extraction of the refresh task (tasks.py line 130):
`[p.get("asin") for p in ranked if p.get("asin")]` — keeps each payload's
identifier when it is present and non-empty (Python truthiness). -/
def extractAsins (ranked : List RawProduct) : List String :=
  ranked.filterMap (fun p => if sTruthy p.asin then p.asin else none)

/-- The cache row produced by the `update_or_create` call of
`_refresh_category_cache` (tasks.py lines 133-141): the `defaults` dict sets
the identifier list (capped at 20), the full product count, the freshness
flag and `next_refresh = now + 1 day` (86400 s); every field not in
`defaults` — in particular `error_count` and `last_error` — keeps its
existing value on an update, or takes the model default (0, "") on create. -/
def newRow (old : Option AffiliateProductCache) (asins : List String)
    (now : Int) : AffiliateProductCache :=
  { cached_asins := asins.take 20
    is_fresh := true
    next_refresh := some (now + 86400)
    product_count := (asins.length : Int)
    error_count := match old with
      | some o => o.error_count
      | none => 0
    last_error := match old with
      | some o => o.last_error
      | none => "" }

/-- `AffiliateProductCache.objects.update_or_create(category=...)`:
replace the category's row in place, or append a fresh row. -/
def writeCache (store : CacheStore) (cid : Nat) (asins : List String)
    (now : Int) : CacheStore :=
  match lookupRow store cid with
  | some old =>
    store.map (fun e => if e.1 == cid then (cid, newRow (some old) asins now) else e)
  | none => store ++ [(cid, newRow none asins now)]

/-- The Amazon product source as an oracle: for a category and the filter
hints dict `{min_rating, min_review_count}` it either raises (`.error`) or
returns a payload list (`.ok`). -/
abbrev FetchOracle : Type :=
  AffiliateCategory → ℚ × Int → Except String (List RawProduct)

/-- `_refresh_category_cache` (tasks.py lines 99-143): look up the category's
rule row — on `DoesNotExist` log a warning and return without writing — then
query the API, rank the payloads, extract ASINs, and `update_or_create` the
cache row.  An exception from the API call propagates to the caller. -/
def _refresh_category_cache (fetch : FetchOracle) (rules : RuleStore)
    (store : CacheStore) (category : AffiliateCategory) (now : Int) :
    Except String CacheStore :=
  match lookupRow rules category.id with
  | none => .ok store
  | some filter_rules =>
    match fetch category (filter_rules.min_rating, filter_rules.min_review_count) with
    | .error e => .error e
    | .ok products =>
      .ok (writeCache store category.id
        (extractAsins (rank_products products)) now)

/-- `refresh_affiliate_products` (tasks.py lines 61-90), the per-category
loop over the selected categories: each category is refreshed inside a
`try/except`; an exception is logged and counted, and the loop continues.
Returns the final cache table with the `(refreshed, errors)` summary. -/
def refresh_affiliate_products (fetch : FetchOracle) (rules : RuleStore)
    (store : CacheStore) (categories : List AffiliateCategory) (now : Int) :
    CacheStore × Nat × Nat :=
  categories.foldl
    (fun acc category =>
      match _refresh_category_cache fetch rules acc.1 category now with
      | .ok s => (s, acc.2.1 + 1, acc.2.2)
      | .error _ => (acc.1, acc.2.1, acc.2.2 + 1))
    (store, 0, 0)

/-- The comparison key `preserved_order.get(x.asin, 999)` of
`AffiliateProductCache.get_products` (models.py lines 447-448):
`preserved_order` is the dict `{asin: i for i, asin in enumerate(asins)}`
(later duplicates overwrite earlier ones), and an absent key yields 999. -/
def preservedOrder (asins : List String) (a : String) : Nat :=
  preservedOrderGo asins a 0 999
where
  /-- One step per list entry: index `i` counts positions, `acc` is the
  current dict entry for `a` (999 while absent). -/
  preservedOrderGo : List String → String → Nat → Nat → Nat
    | [], _, _, acc => acc
    | x :: xs, a, i, acc =>
      preservedOrderGo xs a (i + 1) (if x == a then i else acc)

/-- `AffiliateProductCache.get_products` (models.py lines 434-448): empty
list for an empty cache; otherwise fetch the ACTIVE rows whose ASIN is in
the stored list (in database order) and stable-sort them by the stored
position of their ASIN. -/
def get_products (c : AffiliateProductCache) (db : List AffiliateProduct) :
    List AffiliateProduct :=
  if c.cached_asins.isEmpty then []
  else
    (db.filter (fun p => c.cached_asins.contains p.asin && p.status == "ACTIVE")).mergeSort
      (fun p q => Nat.ble (preservedOrder c.cached_asins p.asin)
        (preservedOrder c.cached_asins q.asin))

/-- The sort key of `order_by("-rating", ...)`: the nullable rating, a NULL
rating sorting as smallest (SQLite backend) and therefore last under DESC. -/
def ratingKey (p : AffiliateProduct) : WithBot ℚ :=
  p.rating.elim (⊥ : WithBot ℚ) (fun r => (r : WithBot ℚ))

/-- The ordering `order_by("-rating", "-review_count")` of
`ProductService.get_top_products` (affiliate_services.py lines 195-197):
rating descending then review count descending. -/
def topLE (p q : AffiliateProduct) : Bool :=
  decide (ratingKey q < ratingKey p ∨
    (ratingKey p = ratingKey q ∧ q.review_count ≤ p.review_count))

/-- `ProductService.get_top_products` (affiliate_services.py lines 184-197):
ACTIVE, in-stock products ordered by rating desc then review count desc,
truncated to `limit`. -/
def get_top_products (db : List AffiliateProduct) (limit : Nat) :
    List AffiliateProduct :=
  ((db.filter (fun p => p.status == "ACTIVE" && p.in_stock)).mergeSort topLE).take limit

/-- `CacheService.get_fallback_products` (affiliate_services.py lines
254-278): if the category has a parent whose cache row exists (the bare
`except` swallows a missing row) and holds a non-empty identifier list,
resolve and truncate the parent's products; otherwise fall back to the
global top products. -/
def get_fallback_products (category : AffiliateCategory) (store : CacheStore)
    (db : List AffiliateProduct) (limit : Nat) : List AffiliateProduct :=
  match category.parent with
  | some pid =>
    match lookupRow store pid with
    | some parent_cache =>
      if parent_cache.cached_asins.isEmpty then get_top_products db limit
      else (get_products parent_cache db).take limit
    | none => get_top_products db limit
  | none => get_top_products db limit

/-- A 3.9-star product with an arbitrarily large review count (C7's instance). -/
def lowRatedProduct : AffiliateProduct :=
  { asin := "B0LOW"
    rating := some (39/10)
    review_count := 10000
    in_stock := true
    price_gbp := none
    status := "ACTIVE" }

/-- A rule row demanding a 4.0 minimum rating (model defaults otherwise). -/
def minFourRule : AffiliateProductFilter :=
  { min_rating := 4
    min_review_count := 200
    max_bsr_percentile := 10
    uk_marketplace_only := true
    in_stock_only := true
    min_price := none
    max_price := none
    is_active := true }

/-- A payload with identifier "A1", used as a successful fetch result. -/
def rawOk : RawProduct :=
  { asin := some "A1", rating := some 5, review_count := some 1000,
    bsr_rank := none }

/-- Batch fixture: category 1 (fetch succeeds with one payload). -/
def c2Cat1 : AffiliateCategory := { id := 1, parent := none }

/-- Batch fixture: category 2 (fetch throws). -/
def c2Cat2 : AffiliateCategory := { id := 2, parent := none }

/-- Batch fixture: category 3 (fetch succeeds with no payloads). -/
def c2Cat3 : AffiliateCategory := { id := 3, parent := none }

/-- Batch fixture: all three categories carry the same rule row. -/
def c2Rules : RuleStore := [(1, minFourRule), (2, minFourRule), (3, minFourRule)]

/-- Batch fixture oracle: the source call throws for category 2 only. -/
def c2Fetch : FetchOracle := fun c _ =>
  if c.id == 2 then .error "Amazon API unreachable"
  else if c.id == 1 then .ok [rawOk]
  else .ok []

/-- Batch fixture: category 2's pre-existing cache row with last-known-good
identifiers and a clean error state. -/
def c2Row2 : AffiliateProductCache :=
  { cached_asins := ["OLD1", "OLD2"], is_fresh := false, next_refresh := some 50,
    product_count := 2, error_count := 0, last_error := "" }

/-- Batch fixture: the initial cache table holds only category 2's row. -/
def c2Store : CacheStore := [(2, c2Row2)]

/-- C3 fixture: a category with no eligibility-rule row. -/
def c3Cat : AffiliateCategory := { id := 7, parent := none }

/-- C3 fixture oracle: the source would happily return one payload. -/
def c3Fetch : FetchOracle := fun _ _ => .ok [rawOk]

/-- C4 fixture: an existing cache row carrying a recorded error state. -/
def c4Old : AffiliateProductCache :=
  { cached_asins := ["OLDA"], is_fresh := false, next_refresh := some 50,
    product_count := 1, error_count := 5, last_error := "boom" }

/-- Resolution fixture: ACTIVE product with ASIN "A". -/
def prodA : AffiliateProduct :=
  { asin := "A", rating := some 5, review_count := 10, in_stock := true,
    price_gbp := none, status := "ACTIVE" }

/-- Resolution fixture: ACTIVE product with ASIN "B". -/
def prodB : AffiliateProduct :=
  { asin := "B", rating := some 4, review_count := 20, in_stock := true,
    price_gbp := none, status := "ACTIVE" }

/-- Resolution fixture: ACTIVE product with ASIN "C". -/
def prodC : AffiliateProduct :=
  { asin := "C", rating := some 3, review_count := 30, in_stock := true,
    price_gbp := none, status := "ACTIVE" }

/-- Resolution fixture: a DISCONTINUED product with ASIN "X" — its cached
identifier no longer resolves to an ACTIVE record. -/
def prodX : AffiliateProduct :=
  { asin := "X", rating := some 5, review_count := 40, in_stock := false,
    price_gbp := none, status := "DISCONTINUED" }

/-- Resolution fixture: the product table, fetched in database order
A, X, B, C — different from the stored order. -/
def c5Db : List AffiliateProduct := [prodA, prodX, prodB, prodC]

/-- Resolution fixture: stored order C, A, X, B ("X" unresolvable). -/
def c5Cache : AffiliateProductCache :=
  { cached_asins := ["C", "A", "X", "B"], is_fresh := true, next_refresh := none,
    product_count := 4, error_count := 0, last_error := "" }

/-- Fallback fixture: a child category whose parent is category 9. -/
def c8Child : AffiliateCategory := { id := 10, parent := some 9 }

/-- Fallback fixture: the parent's cache holds the non-empty list A, B. -/
def c8ParentCache : AffiliateProductCache :=
  { cached_asins := ["A", "B"], is_fresh := true, next_refresh := none,
    product_count := 2, error_count := 0, last_error := "" }

/-- Fallback fixture: the cache table with only the parent's row. -/
def c8Store : CacheStore := [(9, c8ParentCache)]

/-- The 4.5-star, 300-review payload of the claim's tie-break instance. -/
def tie300 : RawProduct :=
  { asin := some "B0300", rating := some (9/2), review_count := some 300,
    bsr_rank := none }

/-- The 4.5-star, 500-review payload of the claim's tie-break instance. -/
def tie500 : RawProduct :=
  { asin := some "B0500", rating := some (9/2), review_count := some 500,
    bsr_rank := none }

/-- Two payloads with identical ranking keys but different identifiers,
used to exhibit stability. -/
def tieA : RawProduct :=
  { asin := some "B0A", rating := some 4, review_count := some 250,
    bsr_rank := some 7 }

/-- Second payload of the stability pair. -/
def tieB : RawProduct :=
  { asin := some "B0B", rating := some 4, review_count := some 250,
    bsr_rank := some 7 }

/-- C1 counterexample input: empty identifier list, `is_fresh = true`,
`next_refresh` in the future. -/
def c1Cache : AffiliateProductCache :=
  { cached_asins := []
    is_fresh := true
    next_refresh := some 10
    product_count := 0
    error_count := 0
    last_error := "" }

end Fitvantage

namespace Fitvantage

theorem k1_lt_iff {p q : RawProduct} :
    k1 p < k1 q ↔ q.rating.getD 0 < p.rating.getD 0 := by
  rw [k1, k1, neg_lt_neg_iff, mul_lt_mul_right (by norm_num : (0:ℚ) < 2/5)]

theorem k1_eq_iff {p q : RawProduct} :
    k1 p = k1 q ↔ p.rating.getD 0 = q.rating.getD 0 := by
  rw [k1, k1, neg_inj, mul_left_inj' (by norm_num : (2/5 : ℚ) ≠ 0)]

theorem k2_lt_iff {p q : RawProduct} :
    k2 p < k2 q ↔ q.review_count.getD 0 < p.review_count.getD 0 := by
  rw [k2, k2, neg_lt_neg_iff, mul_lt_mul_right (by norm_num : (0:ℚ) < 3/10)]
  exact_mod_cast Iff.rfl

theorem k2_eq_iff {p q : RawProduct} :
    k2 p = k2 q ↔ p.review_count.getD 0 = q.review_count.getD 0 := by
  rw [k2, k2, neg_inj, mul_left_inj' (by norm_num : (3/10 : ℚ) ≠ 0)]
  exact_mod_cast Iff.rfl

theorem k3_le_iff {p q : RawProduct} : k3 p ≤ k3 q ↔ bsrKey p ≤ bsrKey q := by
  cases hp : p.bsr_rank <;> cases hq : q.bsr_rank <;>
    simp [k3, bsrKey, hp, hq, ← WithTop.coe_mul, WithTop.coe_le_coe,
      WithTop.coe_ne_top, mul_le_mul_right (by norm_num : (0:ℚ) < 3/10)]

theorem k3_eq_of_bsrKey_eq {p q : RawProduct} (h : bsrKey p = bsrKey q) :
    k3 p = k3 q := by
  cases hp : p.bsr_rank <;> cases hq : q.bsr_rank <;>
    simp_all [k3, bsrKey, hp, hq]

/-- The code's comparator agrees with the spec's ordering relation. -/
theorem rankLE_iff {p q : RawProduct} : rankLE p q = true ↔ specRankLE p q := by
  rw [rankLE, decide_eq_true_iff]
  rw [specRankLE, k1_lt_iff, k1_eq_iff, k2_lt_iff, k2_eq_iff, k3_le_iff]

theorem rankLE_total : ∀ p q : RawProduct, rankLE p q || rankLE q p := by
  intro p q
  simp only [rankLE, Bool.or_eq_true, decide_eq_true_iff]
  rcases lt_trichotomy (k1 p) (k1 q) with h1 | h1 | h1
  · exact Or.inl (Or.inl h1)
  · rcases lt_trichotomy (k2 p) (k2 q) with h2 | h2 | h2
    · exact Or.inl (Or.inr ⟨h1, Or.inl h2⟩)
    · rcases le_total (k3 p) (k3 q) with h3 | h3
      · exact Or.inl (Or.inr ⟨h1, Or.inr ⟨h2, h3⟩⟩)
      · exact Or.inr (Or.inr ⟨h1.symm, Or.inr ⟨h2.symm, h3⟩⟩)
    · exact Or.inr (Or.inr ⟨h1.symm, Or.inl h2⟩)
  · exact Or.inr (Or.inl h1)

theorem rankLE_trans : ∀ p q r : RawProduct,
    rankLE p q → rankLE q r → rankLE p r := by
  intro p q r hpq hqr
  simp only [rankLE, decide_eq_true_iff] at hpq hqr ⊢
  rcases hpq with h1 | ⟨e1, hrest⟩
  · rcases hqr with h1' | ⟨e1', _⟩
    · exact Or.inl (h1.trans h1')
    · exact Or.inl (e1' ▸ h1)
  · rcases hqr with h1' | ⟨e1', hrest'⟩
    · exact Or.inl (e1.trans_lt h1')
    · refine Or.inr ⟨e1.trans e1', ?_⟩
      rcases hrest with h2 | ⟨e2, h3⟩
      · rcases hrest' with h2' | ⟨e2', _⟩
        · exact Or.inl (h2.trans h2')
        · exact Or.inl (e2' ▸ h2)
      · rcases hrest' with h2' | ⟨e2', h3'⟩
        · exact Or.inl (e2.trans_lt h2')
        · exact Or.inr ⟨e2.trans e2', h3.trans h3'⟩

/-- `mergeSort` on a two-element list compares the two elements once. -/
theorem mergeSort_pair (le : α → α → Bool) (a b : α) :
    [a, b].mergeSort le = if le a b then [a, b] else [b, a] := by
  rw [List.mergeSort]
  simp [List.splitInTwo, List.splitAt, List.splitAt.go, List.merge]

theorem rankLE_tie300_tie500 : rankLE tie300 tie500 = false := by
  simp only [rankLE, decide_eq_false_iff_not, k1, k2, k3, tie300, tie500]
  norm_num

end Fitvantage

/-- C1, counterexample: the model-level staleness check `is_cache_stale`
returns `false` on a cache whose identifier list is empty but whose freshness
flag is set and whose next refresh (t=10) is after now (t=0), whereas the
claim requires the staleness predicate to report `true` whenever the stored
identifier list is empty. -/
theorem c1_empty_list_not_stale :
    Fitvantage.is_cache_stale Fitvantage.c1Cache 0 = false := by
  decide

/-- C1, amended: staleness is split across two functions.  The model method
`is_cache_stale` reports stale exactly when the freshness flag is false or the
current time is strictly past a set next-refresh timestamp — the empty
identifier list does NOT trigger it.  The service-level usability check
`is_cache_fresh` returns false exactly when the identifier list is empty, OR
the freshness flag is false, OR the current time is strictly past a set
next-refresh timestamp — each condition independently sufficient. -/
theorem cache_staleness_characterization :
    (∀ (c : Fitvantage.AffiliateProductCache) (now : Int),
      Fitvantage.is_cache_stale c now = true ↔
        (c.is_fresh = false ∨ ∃ t, c.next_refresh = some t ∧ t < now)) ∧
    (∀ (c : Fitvantage.AffiliateProductCache) (now : Int),
      Fitvantage.is_cache_fresh c now = false ↔
        (c.cached_asins = [] ∨ c.is_fresh = false ∨
          ∃ t, c.next_refresh = some t ∧ t < now)) := by
  constructor
  · intro c now
    cases hf : c.is_fresh <;> cases hn : c.next_refresh <;>
      simp [Fitvantage.is_cache_stale, hf, hn]
  · intro c now
    cases hf : c.is_fresh <;> cases ha : c.cached_asins <;>
      cases hn : c.next_refresh <;>
      simp [Fitvantage.is_cache_fresh, Fitvantage.is_cache_stale, hf, ha, hn]

/-- C1 amended witness: concrete evaluations through the characterization:
a fresh-flagged cache with empty list and future refresh is unusable
(`is_cache_fresh = false`), and a cache with the flag cleared is stale. -/
theorem cache_staleness_characterization_witness :
    Fitvantage.is_cache_fresh Fitvantage.c1Cache 0 = false :=
  (cache_staleness_characterization.2 Fitvantage.c1Cache 0).mpr (Or.inl rfl)

/-- C6: `ProductRanker.rank_products` (at its default weights) never discards
a product — the output is a permutation of the input — and orders it by
rating descending, then review count descending, then best-seller rank
ascending with an absent rank worst-possible; ties (all three keys equal)
keep their input order (stability); and on the claim's instance, of two
4.5-star products with 500 and 300 reviews the 500-review one ranks first. -/
theorem ranker_orders_and_never_discards :
    (∀ l : List Fitvantage.RawProduct,
      (Fitvantage.rank_products l).Perm l) ∧
    (∀ l : List Fitvantage.RawProduct,
      (Fitvantage.rank_products l).Pairwise Fitvantage.specRankLE) ∧
    (∀ (l : List Fitvantage.RawProduct) (a b : Fitvantage.RawProduct),
      List.Sublist [a, b] l →
      a.rating.getD 0 = b.rating.getD 0 →
      a.review_count.getD 0 = b.review_count.getD 0 →
      Fitvantage.bsrKey a = Fitvantage.bsrKey b →
      List.Sublist [a, b] (Fitvantage.rank_products l)) ∧
    Fitvantage.rank_products [Fitvantage.tie300, Fitvantage.tie500] =
      [Fitvantage.tie500, Fitvantage.tie300] := by
  refine ⟨?_, ?_, ?_, ?_⟩
  · intro l
    exact List.mergeSort_perm l Fitvantage.rankLE
  · intro l
    exact (List.sorted_mergeSort Fitvantage.rankLE_trans
      Fitvantage.rankLE_total l).imp (fun h => Fitvantage.rankLE_iff.mp h)
  · intro l a b hsub h1 h2 h3
    refine List.pair_sublist_mergeSort Fitvantage.rankLE_trans
      Fitvantage.rankLE_total ?_ hsub
    rw [Fitvantage.rankLE, decide_eq_true_iff]
    exact Or.inr ⟨Fitvantage.k1_eq_iff.mpr h1,
      Or.inr ⟨Fitvantage.k2_eq_iff.mpr h2,
        le_of_eq (Fitvantage.k3_eq_of_bsrKey_eq h3)⟩⟩
  · rw [Fitvantage.rank_products, Fitvantage.mergeSort_pair]
    rw [if_neg]
    simp [Fitvantage.rankLE_tie300_tie500]

/-- C6 witness: two payloads with identical keys but different identifiers
retain their input order, via the stability conjunct at a concrete list. -/
theorem ranker_orders_and_never_discards_witness :
    List.Sublist [Fitvantage.tieA, Fitvantage.tieB]
      (Fitvantage.rank_products [Fitvantage.tieA, Fitvantage.tieB]) :=
  ranker_orders_and_never_discards.2.2.1 [Fitvantage.tieA, Fitvantage.tieB]
    Fitvantage.tieA Fitvantage.tieB (List.Sublist.refl _) rfl rfl rfl

/-- C7: both eligibility checks return `false` whenever the product's rating
is absent or strictly below the rule's minimum rating, regardless of every
other field of the product and the rule
(`FilterService.apply_filter_rules` against a rule row, and
`AffiliateProduct.meets_filter_criteria` against a rules dict whose
`min_rating` defaults to 4.0). -/
theorem eligibility_rejects_low_rating :
    (∀ (p : Fitvantage.AffiliateProduct) (r : Fitvantage.AffiliateProductFilter),
      (p.rating = none ∨ ∃ q, p.rating = some q ∧ q < r.min_rating) →
      Fitvantage.apply_filter_rules p r = false) ∧
    (∀ (p : Fitvantage.AffiliateProduct) (d : Fitvantage.FilterRulesDict),
      (p.rating = none ∨ ∃ q, p.rating = some q ∧ q < d.min_rating.getD 4) →
      Fitvantage.meets_filter_criteria p d = false) := by
  constructor
  · rintro p r (h | ⟨q, hq, hlt⟩) <;>
      simp_all [Fitvantage.apply_filter_rules]
  · rintro p d (h | ⟨q, hq, hlt⟩) <;>
      simp_all [Fitvantage.meets_filter_criteria]

/-- C7 witness: the 3.9-star, 10000-review product is rejected by the
4.0-minimum rule. -/
theorem eligibility_rejects_low_rating_witness :
    Fitvantage.apply_filter_rules Fitvantage.lowRatedProduct
      Fitvantage.minFourRule = false :=
  eligibility_rejects_low_rating.1 Fitvantage.lowRatedProduct
    Fitvantage.minFourRule
    (Or.inr ⟨39/10, rfl, by simp [Fitvantage.minFourRule]; norm_num⟩)

/-- C9: a product with no price is never rejected on price grounds — for a
priceless product the eligibility result is identical to the result under the
same rule with both price bounds removed, so `min_price`/`max_price` can never
influence it. -/
theorem priceless_product_ignores_price_bounds :
    ∀ (p : Fitvantage.AffiliateProduct) (r : Fitvantage.AffiliateProductFilter),
      p.price_gbp = none →
      Fitvantage.apply_filter_rules p r =
        Fitvantage.apply_filter_rules p
          { r with min_price := none, max_price := none } := by
  intro p r hp
  simp [Fitvantage.apply_filter_rules, hp, Fitvantage.qTruthy]

/-- C9 witness: the concrete priceless product against a rule with both
bounds set evaluates equally with and without the bounds. -/
theorem priceless_product_ignores_price_bounds_witness :
    Fitvantage.apply_filter_rules Fitvantage.lowRatedProduct
      { Fitvantage.minFourRule with min_price := some 100, max_price := some 200 } =
    Fitvantage.apply_filter_rules Fitvantage.lowRatedProduct
      { { Fitvantage.minFourRule with min_price := some 100, max_price := some 200 } with
          min_price := none, max_price := none } :=
  priceless_product_ignores_price_bounds Fitvantage.lowRatedProduct
    { Fitvantage.minFourRule with min_price := some 100, max_price := some 200 } rfl

/-- C10: the eligibility check reads only `min_rating`, `min_review_count`,
`in_stock_only`, `min_price` and `max_price` from the rule: two rules that
agree on those five fields produce the same verdict on every product, however
they differ in `max_bsr_percentile`, `uk_marketplace_only` or `is_active`. -/
theorem eligibility_depends_only_on_five_rule_fields :
    ∀ (p : Fitvantage.AffiliateProduct)
      (r₁ r₂ : Fitvantage.AffiliateProductFilter),
      r₁.min_rating = r₂.min_rating →
      r₁.min_review_count = r₂.min_review_count →
      r₁.in_stock_only = r₂.in_stock_only →
      r₁.min_price = r₂.min_price →
      r₁.max_price = r₂.max_price →
      Fitvantage.apply_filter_rules p r₁ = Fitvantage.apply_filter_rules p r₂ := by
  intro p r₁ r₂ h1 h2 h3 h4 h5
  simp [Fitvantage.apply_filter_rules, h1, h2, h3, h4, h5]

/-- C10 witness: two rules agreeing on the five read fields but with opposite
`uk_marketplace_only`/`is_active` and different `max_bsr_percentile` give the
same verdict on the concrete product. -/
theorem eligibility_depends_only_on_five_rule_fields_witness :
    Fitvantage.apply_filter_rules Fitvantage.lowRatedProduct
      Fitvantage.minFourRule =
    Fitvantage.apply_filter_rules Fitvantage.lowRatedProduct
      { Fitvantage.minFourRule with
          max_bsr_percentile := 99, uk_marketplace_only := false,
          is_active := false } :=
  eligibility_depends_only_on_five_rule_fields Fitvantage.lowRatedProduct
    Fitvantage.minFourRule
    { Fitvantage.minFourRule with
        max_bsr_percentile := 99, uk_marketplace_only := false,
        is_active := false }
    rfl rfl rfl rfl rfl

namespace Fitvantage

theorem find?_update_eq {β : Type} (store : List (Nat × β)) (cid : Nat)
    (new : β) :
    (store.map (fun e => if e.1 == cid then (cid, new) else e)).find?
        (fun e => e.1 == cid) =
      (store.find? (fun e => e.1 == cid)).map (fun _ => (cid, new)) := by
  induction store with
  | nil => rfl
  | cons e t ih =>
    simp only [List.map_cons]
    cases h : (e.1 == cid) with
    | true =>
      rw [if_pos rfl]
      simp [List.find?_cons_of_pos, h]
    | false =>
      rw [if_neg (by simp)]
      rw [List.find?_cons_of_neg _ (by simp [h]), List.find?_cons_of_neg _ (by simp [h]),
        ih]

theorem lookupRow_writeCache_self (store : CacheStore) (cid : Nat)
    (asins : List String) (now : Int) :
    lookupRow (writeCache store cid asins now) cid =
      some (newRow (lookupRow store cid) asins now) := by
  cases h : lookupRow store cid with
  | none =>
    have hf : store.find? (fun e => e.1 == cid) = none := by
      rw [lookupRow] at h
      exact Option.map_eq_none'.mp h
    rw [writeCache, h, lookupRow]
    simp [hf, h]
  | some old =>
    obtain ⟨e, he⟩ : ∃ e, store.find? (fun e => e.1 == cid) = some e := by
      rw [lookupRow] at h
      cases hf : store.find? (fun e => e.1 == cid) with
      | none => rw [hf] at h; cases h
      | some e => exact ⟨e, rfl⟩
    rw [writeCache, h, lookupRow, find?_update_eq, he]
    rfl

end Fitvantage

/-- C2 (code evaluated at the failing input): running the batch over three
categories where category 2's source call throws still writes the caches of
categories 1 and 3 and reports `(refreshed, errors) = (2, 1)` — the failure
is isolated — but category 2's cache row is left byte-for-byte unchanged:
its last-known-good identifier list survives, yet `error_count` stays 0 and
`last_error` stays empty; no error is ever recorded on the row. -/
theorem refresh_batch_partial_failure_row_untouched :
    Fitvantage.refresh_affiliate_products Fitvantage.c2Fetch Fitvantage.c2Rules
        Fitvantage.c2Store [Fitvantage.c2Cat1, Fitvantage.c2Cat2, Fitvantage.c2Cat3]
        100 =
      ([(2, Fitvantage.c2Row2),
        (1, Fitvantage.newRow none ["A1"] 100),
        (3, Fitvantage.newRow none [] 100)], 2, 1) ∧
    Fitvantage.c2Row2.error_count = 0 ∧ Fitvantage.c2Row2.last_error = "" := by
  refine ⟨?_, rfl, rfl⟩
  simp [Fitvantage.refresh_affiliate_products, Fitvantage._refresh_category_cache,
    Fitvantage.c2Fetch, Fitvantage.c2Rules, Fitvantage.c2Store, Fitvantage.lookupRow,
    Fitvantage.writeCache, Fitvantage.extractAsins, Fitvantage.rank_products,
    Fitvantage.c2Cat1, Fitvantage.c2Cat2, Fitvantage.c2Cat3, Fitvantage.sTruthy,
    Fitvantage.rawOk, Fitvantage.newRow]

/-- C3 counterexample: a category with no eligibility-rule row is not
refreshed with synthesized defaults — the task returns without writing any
cache row (the store stays empty) and even counts the category as
successfully refreshed (summary `(1, 0)`), although the source had a
payload to offer. -/
theorem missing_rule_skips_category :
    Fitvantage.refresh_affiliate_products Fitvantage.c3Fetch [] []
      [Fitvantage.c3Cat] 0 = ([], 1, 0) := rfl

/-- C3 amended: when a category has no eligibility-rule row the refresh task
skips it — `_refresh_category_cache` returns with the cache table unchanged
and no error — while the documented defaults (min_rating 4.0,
min_review_count 200, in_stock_only true) are synthesized only by
`FilterService.get_filter_rules`, which the refresh task does not call. -/
theorem missing_rule_behavior :
    (∀ (fetch : Fitvantage.FetchOracle) (rules : Fitvantage.RuleStore)
        (store : Fitvantage.CacheStore) (category : Fitvantage.AffiliateCategory)
        (now : Int),
      Fitvantage.lookupRow rules category.id = none →
      Fitvantage._refresh_category_cache fetch rules store category now =
        .ok store) ∧
    (∀ (rules : Fitvantage.RuleStore) (category : Fitvantage.AffiliateCategory),
      Fitvantage.lookupRow rules category.id = none →
      (Fitvantage.get_filter_rules rules category).min_rating = 4 ∧
      (Fitvantage.get_filter_rules rules category).min_review_count = 200 ∧
      (Fitvantage.get_filter_rules rules category).in_stock_only = true) := by
  constructor
  · intro fetch rules store category now h
    rw [Fitvantage._refresh_category_cache, h]
  · intro rules category h
    rw [Fitvantage.get_filter_rules, h]
    exact ⟨rfl, rfl, rfl⟩

/-- C3 amended witness: the concrete rule-less category is skipped with the
store unchanged, and the synthesized rule carries the documented defaults. -/
theorem missing_rule_behavior_witness :
    Fitvantage._refresh_category_cache Fitvantage.c3Fetch [] []
        Fitvantage.c3Cat 0 = .ok [] ∧
    (Fitvantage.get_filter_rules [] Fitvantage.c3Cat).min_rating = 4 :=
  ⟨missing_rule_behavior.1 Fitvantage.c3Fetch [] [] Fitvantage.c3Cat 0 rfl,
    (missing_rule_behavior.2 [] Fitvantage.c3Cat rfl).1⟩

/-- C4 counterexample: a cache write over a row carrying `error_count = 5`
and `last_error = "boom"` leaves both error fields as they were — the claim's
"resets the consecutive-error count to 0 and clears the last error message"
does not happen (the `update_or_create` defaults do not include them). -/
theorem cache_write_keeps_error_fields :
    Fitvantage.lookupRow
        (Fitvantage.writeCache [(1, Fitvantage.c4Old)] 1 ["A1"] 100) 1 =
      some { cached_asins := ["A1"], is_fresh := true, next_refresh := some 86500,
             product_count := 1, error_count := 5, last_error := "boom" } := rfl

/-- C4 amended: a successful per-category refresh replaces the stored
identifier list with the ranked ASINs capped to the first 20, stores the
full extracted count in `product_count`, sets the freshness flag, and sets
next-refresh to the write time plus one day (86400 s) regardless of any
tier — while `error_count` and `last_error` keep their previous values on an
existing row (or take 0 / "" on a newly created one). -/
theorem refresh_write_contract :
    ∀ (fetch : Fitvantage.FetchOracle) (rules : Fitvantage.RuleStore)
      (store : Fitvantage.CacheStore) (category : Fitvantage.AffiliateCategory)
      (now : Int) (r : Fitvantage.AffiliateProductFilter)
      (products : List Fitvantage.RawProduct),
      Fitvantage.lookupRow rules category.id = some r →
      fetch category (r.min_rating, r.min_review_count) = .ok products →
      ∃ store',
        Fitvantage._refresh_category_cache fetch rules store category now =
          .ok store' ∧
        Fitvantage.lookupRow store' category.id =
          some { cached_asins :=
                   (Fitvantage.extractAsins (Fitvantage.rank_products products)).take 20
                 is_fresh := true
                 next_refresh := some (now + 86400)
                 product_count :=
                   ((Fitvantage.extractAsins (Fitvantage.rank_products products)).length : Int)
                 error_count := match Fitvantage.lookupRow store category.id with
                   | some o => o.error_count
                   | none => 0
                 last_error := match Fitvantage.lookupRow store category.id with
                   | some o => o.last_error
                   | none => "" } := by
  intro fetch rules store category now r products hr hf
  have hstep : Fitvantage._refresh_category_cache fetch rules store category now =
      .ok (Fitvantage.writeCache store category.id
        (Fitvantage.extractAsins (Fitvantage.rank_products products)) now) := by
    simp only [Fitvantage._refresh_category_cache, hr, hf]
  exact ⟨_, hstep, Fitvantage.lookupRow_writeCache_self store category.id _ now⟩

/-- C4 amended witness: the contract applied to the concrete fixture —
category 1 with its rule row, the oracle returning one payload, writing over
the row that carries `error_count = 5`. -/
theorem refresh_write_contract_witness :
    ∃ store',
      Fitvantage._refresh_category_cache Fitvantage.c3Fetch
          [(1, Fitvantage.minFourRule)] [(1, Fitvantage.c4Old)]
          Fitvantage.c2Cat1 100 = .ok store' ∧
      Fitvantage.lookupRow store' 1 =
        some { cached_asins :=
                 (Fitvantage.extractAsins
                   (Fitvantage.rank_products [Fitvantage.rawOk])).take 20
               is_fresh := true
               next_refresh := some 86500
               product_count :=
                 ((Fitvantage.extractAsins
                   (Fitvantage.rank_products [Fitvantage.rawOk])).length : Int)
               error_count := 5
               last_error := "boom" } :=
  refresh_write_contract Fitvantage.c3Fetch [(1, Fitvantage.minFourRule)]
    [(1, Fitvantage.c4Old)] Fitvantage.c2Cat1 100 Fitvantage.minFourRule
    [Fitvantage.rawOk] rfl rfl

namespace Fitvantage

theorem preservedOrderGo_cons (x : String) (xs : List String) (a : String)
    (i acc : Nat) :
    preservedOrder.preservedOrderGo (x :: xs) a i acc =
      preservedOrder.preservedOrderGo xs a (i + 1) (if x == a then i else acc) :=
  rfl

theorem preservedOrderGo_not_mem :
    ∀ (xs : List String) (a : String) (i acc : Nat), a ∉ xs →
      preservedOrder.preservedOrderGo xs a i acc = acc := by
  intro xs
  induction xs with
  | nil => intro a i acc _; rfl
  | cons x t ih =>
    intro a i acc h
    simp only [List.mem_cons, not_or] at h
    rw [preservedOrderGo_cons,
      show ((x == a) = false) from beq_eq_false_iff_ne.mpr (fun e => h.1 e.symm),
      if_neg (by simp)]
    exact ih a (i + 1) acc h.2

theorem preservedOrderGo_ge :
    ∀ (xs : List String) (a : String) (i acc : Nat), a ∈ xs →
      i ≤ preservedOrder.preservedOrderGo xs a i acc := by
  intro xs
  induction xs with
  | nil => intro a i acc h; cases h
  | cons x t ih =>
    intro a i acc h
    rw [preservedOrderGo_cons]
    by_cases ht : a ∈ t
    · exact Nat.le_of_succ_le (ih a (i + 1) _ ht)
    · have hax : a = x := by
        rcases List.mem_cons.mp h with h1 | h2
        · exact h1
        · exact absurd h2 ht
      subst hax
      rw [beq_self_eq_true, if_pos rfl, preservedOrderGo_not_mem t a (i + 1) i ht]

theorem preservedOrderGo_pairwise :
    ∀ (xs : List String) (i : Nat), xs.Nodup →
      xs.Pairwise (fun a b =>
        preservedOrder.preservedOrderGo xs a i 999 <
          preservedOrder.preservedOrderGo xs b i 999) := by
  intro xs
  induction xs with
  | nil => intro i _; exact List.Pairwise.nil
  | cons x t ih =>
    intro i h
    rw [List.nodup_cons] at h
    refine List.Pairwise.cons ?_ ?_
    · intro b hb
      have hxb : (x == b) = false :=
        beq_eq_false_iff_ne.mpr (fun e => h.1 (e ▸ hb))
      rw [preservedOrderGo_cons, preservedOrderGo_cons, beq_self_eq_true,
        if_pos rfl, hxb, if_neg (by simp),
        preservedOrderGo_not_mem t x (i + 1) i h.1]
      exact Nat.lt_of_lt_of_le (Nat.lt_succ_self i)
        (preservedOrderGo_ge t b (i + 1) 999 hb)
    · refine List.Pairwise.imp_of_mem ?_ (ih (i + 1) h.2)
      intro a b ha hb hr
      have hxa : (x == a) = false :=
        beq_eq_false_iff_ne.mpr (fun e => h.1 (e ▸ ha))
      have hxb : (x == b) = false :=
        beq_eq_false_iff_ne.mpr (fun e => h.1 (e ▸ hb))
      rw [preservedOrderGo_cons, preservedOrderGo_cons, hxa, hxb,
        if_neg (by simp)]
      exact hr

theorem preservedOrder_pairwise {asins : List String} (h : asins.Nodup) :
    asins.Pairwise (fun a b => preservedOrder asins a < preservedOrder asins b) :=
  preservedOrderGo_pairwise asins 0 h

theorem preservedOrder_ne {asins : List String} (h : asins.Nodup)
    {a b : String} (ha : a ∈ asins) (hb : b ∈ asins) (hne : a ≠ b) :
    preservedOrder asins a ≠ preservedOrder asins b := by
  have hp : asins.Pairwise (fun a b =>
      preservedOrder asins a < preservedOrder asins b ∨
        preservedOrder asins b < preservedOrder asins a) :=
    (preservedOrder_pairwise h).imp Or.inl
  have hsym : Symmetric (fun a b : String =>
      preservedOrder asins a < preservedOrder asins b ∨
        preservedOrder asins b < preservedOrder asins a) :=
    fun _ _ hab => hab.symm
  rcases hp.forall hsym ha hb hne with h1 | h1 <;> omega

theorem find?_eq_some_of_unique {α : Type} {P : α → Bool} {p : α} :
    ∀ {l : List α}, (∀ q ∈ l, P q = true → q = p) → p ∈ l → P p = true →
      l.find? P = some p := by
  intro l
  induction l with
  | nil => intro _ h _; cases h
  | cons x t ih =>
    intro huniq hmem hP
    cases hx : P x with
    | true =>
      rw [List.find?_cons_of_pos _ hx]
      exact congrArg some (huniq x (List.mem_cons_self x t) hx)
    | false =>
      rw [List.find?_cons_of_neg _ (by simp [hx])]
      have hpt : p ∈ t := by
        rcases List.mem_cons.mp hmem with h1 | h2
        · subst h1; rw [hP] at hx; cases hx
        · exact h2
      exact ih (fun q hq hQ => huniq q (List.mem_cons_of_mem x hq) hQ) hpt hP

theorem eq_of_perm_of_pairwise_asymm {α : Type} {r : α → α → Prop}
    (asym : ∀ a b, r a b → ¬ r b a) :
    ∀ {l₁ l₂ : List α}, l₁.Perm l₂ → l₁.Pairwise r → l₂.Pairwise r → l₁ = l₂ := by
  intro l₁
  induction l₁ with
  | nil =>
    intro l₂ hp _ _
    exact (hp.symm.eq_nil).symm
  | cons a t ih =>
    intro l₂ hp h₁ h₂
    cases l₂ with
    | nil => exact absurd hp.eq_nil (by simp)
    | cons b t₂ =>
      have hab : a = b := by
        by_contra hne
        have hamem : a ∈ b :: t₂ := hp.mem_iff.mp (List.mem_cons_self a t)
        have hbmem : b ∈ a :: t := hp.mem_iff.mpr (List.mem_cons_self b t₂)
        have ha2 : a ∈ t₂ := by
          rcases List.mem_cons.mp hamem with h | h
          · exact absurd h hne
          · exact h
        have hb1 : b ∈ t := by
          rcases List.mem_cons.mp hbmem with h | h
          · exact absurd h.symm hne
          · exact h
        exact asym a b (List.rel_of_pairwise_cons h₁ hb1)
          (List.rel_of_pairwise_cons h₂ ha2)
      subst hab
      rw [ih hp.cons_inv h₁.tail h₂.tail]

end Fitvantage

/-- C5: `AffiliateProductCache.get_products` resolves the stored identifier
list against the product table in exactly the stored order, however the
underlying rows are ordered in the database, and silently omits every
identifier with no matching ACTIVE row: for a duplicate-free stored list
(and the schema-guaranteed unique ASINs), the result is precisely the
stored list mapped through "first ACTIVE record with that ASIN", which
depends only on membership and not on the database order. -/
theorem resolution_preserves_cached_order :
    ∀ (c : Fitvantage.AffiliateProductCache)
      (db : List Fitvantage.AffiliateProduct),
      c.cached_asins.Nodup →
      (db.map (fun p => p.asin)).Nodup →
      Fitvantage.get_products c db =
        c.cached_asins.filterMap
          (fun a => db.find? (fun p => p.asin == a && p.status == "ACTIVE")) := by
  intro c db hA hD
  by_cases hE : c.cached_asins.isEmpty
  · have h0 : c.cached_asins = [] := List.isEmpty_iff.mp hE
    rw [Fitvantage.get_products, if_pos hE, h0, List.filterMap_nil]
  · rw [Fitvantage.get_products, if_neg hE]
    set key := fun p : Fitvantage.AffiliateProduct =>
      Fitvantage.preservedOrder c.cached_asins p.asin with hkey
    set cmp := fun p q : Fitvantage.AffiliateProduct =>
      Nat.ble (Fitvantage.preservedOrder c.cached_asins p.asin)
        (Fitvantage.preservedOrder c.cached_asins q.asin) with hcmp
    set F := db.filter
      (fun p => c.cached_asins.contains p.asin && p.status == "ACTIVE") with hF
    set R := c.cached_asins.filterMap
      (fun a => db.find? (fun p => p.asin == a && p.status == "ACTIVE")) with hR
    have trans : ∀ p q r : Fitvantage.AffiliateProduct,
        cmp p q → cmp q r → cmp p r := by
      intro p q r h1 h2
      rw [hcmp] at h1 h2 ⊢
      simp only [Nat.ble_eq] at h1 h2 ⊢
      omega
    have total : ∀ p q : Fitvantage.AffiliateProduct, cmp p q || cmp q p := by
      intro p q
      rw [hcmp]
      simp only [Bool.or_eq_true, Nat.ble_eq]
      omega
    have hsubl : List.Sublist (F.map (fun p => p.asin)) (db.map (fun p => p.asin)) :=
      (List.filter_sublist db).map _
    have hDF : (F.map (fun p => p.asin)).Nodup := List.Nodup.sublist hsubl hD
    have hmemF : ∀ p : Fitvantage.AffiliateProduct, p ∈ F →
        p ∈ db ∧ p.asin ∈ c.cached_asins ∧ p.status = "ACTIVE" := by
      intro p hp
      rw [hF, List.mem_filter] at hp
      obtain ⟨h1, h2⟩ := hp
      simp only [Bool.and_eq_true, beq_iff_eq] at h2
      refine ⟨h1, ?_, h2.2⟩
      have := h2.1
      simpa using this
    have hfind : ∀ (a : String) (p : Fitvantage.AffiliateProduct),
        db.find? (fun p => p.asin == a && p.status == "ACTIVE") = some p →
        p ∈ db ∧ p.asin = a ∧ p.status = "ACTIVE" := by
      intro a p hp
      have h1 := List.mem_of_find?_eq_some hp
      have h2 := List.find?_some hp
      simp only [Bool.and_eq_true, beq_iff_eq] at h2
      exact ⟨h1, h2.1, h2.2⟩
    have hRpair : R.Pairwise (fun p q => key p < key q) := by
      rw [hR, List.pairwise_filterMap]
      refine (Fitvantage.preservedOrder_pairwise hA).imp ?_
      intro a b hab p hp q hq
      have hfp := hfind a p (Option.mem_def.mp hp)
      have hfq := hfind b q (Option.mem_def.mp hq)
      rw [hkey]
      simp only
      rw [hfp.2.1, hfq.2.1]
      exact hab
    have hRnodup : R.Nodup := by
      refine List.Pairwise.imp ?_ hRpair
      intro p q hlt he
      rw [he] at hlt
      exact Nat.lt_irrefl _ hlt
    have hRperm : R.Perm F := by
      rw [List.perm_ext_iff_of_nodup hRnodup (List.Nodup.of_map _ hDF)]
      intro p
      constructor
      · intro hp
        rw [hR, List.mem_filterMap] at hp
        obtain ⟨a, ha, hfa⟩ := hp
        obtain ⟨hdb, hasin, hstat⟩ := hfind a p hfa
        rw [hF, List.mem_filter]
        refine ⟨hdb, ?_⟩
        simp only [Bool.and_eq_true, beq_iff_eq]
        have hmem : p.asin ∈ c.cached_asins := hasin ▸ ha
        exact ⟨by simpa using hmem, hstat⟩
      · intro hp
        obtain ⟨hdb, hasin, hstat⟩ := hmemF p hp
        rw [hR, List.mem_filterMap]
        refine ⟨p.asin, hasin, ?_⟩
        apply Fitvantage.find?_eq_some_of_unique
        · intro q hq hQ
          simp only [Bool.and_eq_true, beq_iff_eq] at hQ
          exact List.inj_on_of_nodup_map hD hq hdb hQ.1
        · exact hdb
        · simp [hstat]
    have hLperm : (F.mergeSort cmp).Perm F := List.mergeSort_perm F cmp
    have hLsorted : (F.mergeSort cmp).Pairwise (fun p q => cmp p q = true) :=
      List.sorted_mergeSort trans total F
    have hLmapnodup : ((F.mergeSort cmp).map (fun p => p.asin)).Nodup :=
      ((hLperm.map (fun p => p.asin)).nodup_iff).mpr hDF
    have hLne : (F.mergeSort cmp).Pairwise (fun p q => p.asin ≠ q.asin) :=
      (List.pairwise_map).mp hLmapnodup
    have hLstrict : (F.mergeSort cmp).Pairwise (fun p q => key p < key q) := by
      refine List.Pairwise.imp_of_mem ?_ (hLsorted.and hLne)
      intro p q hp hq hpq
      obtain ⟨h1, h2⟩ := hpq
      have hp' : p ∈ F := (List.mem_mergeSort).mp hp
      have hq' : q ∈ F := (List.mem_mergeSort).mp hq
      have hkle : key p ≤ key q := by
        rw [hcmp] at h1
        simp only [Nat.ble_eq] at h1
        exact h1
      exact Nat.lt_of_le_of_ne hkle
        (Fitvantage.preservedOrder_ne hA (hmemF p hp').2.1 (hmemF q hq').2.1 h2)
    exact Fitvantage.eq_of_perm_of_pairwise_asymm
      (fun p q h1 h2 => Nat.lt_asymm h1 h2)
      (hLperm.trans hRperm.symm) hLstrict hRpair

/-- C5 witness: stored order C, A, X, B with rows fetched in database order
A, X, B, C and "X" discontinued — resolution returns exactly the C, A, B
records, in stored order, with "X" silently dropped. -/
theorem resolution_preserves_cached_order_witness :
    Fitvantage.get_products Fitvantage.c5Cache Fitvantage.c5Db =
      [Fitvantage.prodC, Fitvantage.prodA, Fitvantage.prodB] :=
  (resolution_preserves_cached_order Fitvantage.c5Cache Fitvantage.c5Db
    (by decide) (by decide)).trans rfl

namespace Fitvantage

theorem topLE_trans : ∀ p q r : AffiliateProduct,
    topLE p q → topLE q r → topLE p r := by
  intro p q r h1 h2
  simp only [topLE, decide_eq_true_iff] at h1 h2 ⊢
  rcases h1 with h | ⟨e, hle⟩ <;> rcases h2 with h' | ⟨e', hle'⟩
  · exact Or.inl (h'.trans h)
  · exact Or.inl (e' ▸ h)
  · exact Or.inl (lt_of_lt_of_eq h' e.symm)
  · exact Or.inr ⟨e.trans e', hle'.trans hle⟩

theorem topLE_total : ∀ p q : AffiliateProduct, topLE p q || topLE q p := by
  intro p q
  simp only [topLE, Bool.or_eq_true, decide_eq_true_iff]
  rcases lt_trichotomy (ratingKey p) (ratingKey q) with h | h | h
  · exact Or.inr (Or.inl h)
  · rcases Int.le_total q.review_count p.review_count with h2 | h2
    · exact Or.inl (Or.inr ⟨h, h2⟩)
    · exact Or.inr (Or.inr ⟨h.symm, h2⟩)
  · exact Or.inl (Or.inl h)

end Fitvantage

/-- C8: `CacheService.get_fallback_products` returns, when the category has
a parent whose cache row exists and holds a non-empty identifier list, the
parent's resolved products truncated to the requested limit; in every other
case (no parent, parent row missing — the bare `except` — or parent list
empty) it returns the global top products; and the global top products are
a truncation to `limit` of some ordering of exactly the ACTIVE, in-stock
products, sorted by rating descending (NULL last) then review count
descending. -/
theorem fallback_resolution_contract :
    (∀ (category : Fitvantage.AffiliateCategory) (store : Fitvantage.CacheStore)
        (db : List Fitvantage.AffiliateProduct) (limit : Nat) (pid : Nat)
        (pc : Fitvantage.AffiliateProductCache),
      category.parent = some pid →
      Fitvantage.lookupRow store pid = some pc →
      pc.cached_asins ≠ [] →
      Fitvantage.get_fallback_products category store db limit =
        (Fitvantage.get_products pc db).take limit) ∧
    (∀ (category : Fitvantage.AffiliateCategory) (store : Fitvantage.CacheStore)
        (db : List Fitvantage.AffiliateProduct) (limit : Nat),
      (∀ pid, category.parent = some pid →
        ∀ pc, Fitvantage.lookupRow store pid = some pc → pc.cached_asins = []) →
      Fitvantage.get_fallback_products category store db limit =
        Fitvantage.get_top_products db limit) ∧
    (∀ (db : List Fitvantage.AffiliateProduct) (limit : Nat),
      ∃ l : List Fitvantage.AffiliateProduct,
        l.Perm (db.filter (fun p => p.status == "ACTIVE" && p.in_stock)) ∧
        l.Pairwise (fun p q => Fitvantage.ratingKey q < Fitvantage.ratingKey p ∨
          (Fitvantage.ratingKey p = Fitvantage.ratingKey q ∧
            q.review_count ≤ p.review_count)) ∧
        Fitvantage.get_top_products db limit = l.take limit) := by
  refine ⟨?_, ?_, ?_⟩
  · intro category store db limit pid pc hparent hrow hne
    rw [Fitvantage.get_fallback_products, hparent]
    simp only [hrow]
    rw [if_neg (by simp [List.isEmpty_iff, hne])]
  · intro category store db limit h
    rw [Fitvantage.get_fallback_products]
    cases hparent : category.parent with
    | none => rfl
    | some pid =>
      cases hrow : Fitvantage.lookupRow store pid with
      | none => simp [hrow]
      | some pc => simp [hrow, h pid hparent pc hrow]
  · intro db limit
    refine ⟨(db.filter (fun p : Fitvantage.AffiliateProduct =>
        p.status == "ACTIVE" && p.in_stock)).mergeSort Fitvantage.topLE,
      List.mergeSort_perm _ _, ?_, rfl⟩
    exact (List.sorted_mergeSort Fitvantage.topLE_trans Fitvantage.topLE_total
      _).imp (fun h => by simpa only [Fitvantage.topLE, decide_eq_true_iff] using h)

/-- C8 witness: the child category whose parent's cache holds A, B resolves
through the parent (truncated to limit 1), via the first conjunct at
concrete inputs. -/
theorem fallback_resolution_contract_witness :
    Fitvantage.get_fallback_products Fitvantage.c8Child Fitvantage.c8Store
        Fitvantage.c5Db 1 =
      (Fitvantage.get_products Fitvantage.c8ParentCache Fitvantage.c5Db).take 1 :=
  fallback_resolution_contract.1 Fitvantage.c8Child Fitvantage.c8Store
    Fitvantage.c5Db 1 9 Fitvantage.c8ParentCache rfl rfl
    (by simp [Fitvantage.c8ParentCache])
